import Mathlib

set_option maxHeartbeats 1000000
set_option maxRecDepth 4000

/-!
Shallow embedding of the x-card-generator repository: the URL
normalizer/validator, the abbreviated-count parser, profile validation,
the batch orchestrators, and the PDF layout/pagination engines, together
with theorems settling the specification claims about them.

Strings are modelled as `List Char`; JavaScript numbers are modelled as
exact rationals extended with NaN and the two infinities.
-/

/-- The character class `[a-zA-Z0-9_]` used by the username patterns in
`src/utils/urlValidator.ts` (ASCII letters, digits, underscore). -/
def isWordChar (c : Char) : Bool :=
  c.isAlphanum || c == '_'

/-- `dropPfx p s` returns `some r` when `s = p ++ r`, and `none` otherwise:
matching a literal piece of a regular expression against the head of the
input. -/
def dropPfx : List Char → List Char → Option (List Char)
  | [], s => some s
  | _ :: _, [] => none
  | p :: ps, c :: cs => if p == c then dropPfx ps cs else none

/-- JS `String.prototype.trim`: whitespace removed from both ends. -/
def jsTrim (s : List Char) : List Char :=
  (((s.dropWhile Char.isWhitespace).reverse).dropWhile Char.isWhitespace).reverse

/-- The leading `https?:\/\/` of both URL patterns of
`URLValidator.URL_PATTERNS`.  After the literal `http`, the regex engine
takes an optional `s`; committing to the `s` when it is present is exact,
because the following literal `://` cannot begin with `s`. -/
def matchScheme (s : List Char) : Option (List Char) :=
  match dropPfx "http".toList s with
  | none => none
  | some [] => none
  | some (c :: r) =>
    if c == 's' then dropPfx "://".toList r else dropPfx "://".toList (c :: r)

/-- The optional `(www\.)?` group of the URL patterns.  Committing to the
group whenever `www.` is present is exact, because neither allowed host
(`x.com`, `twitter.com`) begins with the letter `w`. -/
def dropWww (s : List Char) : List Char :=
  match dropPfx "www.".toList s with
  | some r => r
  | none => s

/-- The JavaScript line terminators, which `.` in a regex without the `s`
flag never matches: LF, CR, LINE SEPARATOR, PARAGRAPH SEPARATOR. -/
def isLineTerm (c : Char) : Bool :=
  c == '\n' || c == '\r' || c == '\u2028' || c == '\u2029'

/-- The tail `host\/([a-zA-Z0-9_]{1,15})(?:\/.*|\?.*|#.*|$)$` of a pattern in
`URLValidator.URL_PATTERNS`, applied after the scheme.  The greedy capture
takes the maximal run of word characters: backtracking to any shorter
capture leaves a word character as the next input character, which none of
the closing alternatives (`\/.*`, `\?.*`, `#.*`, end of input) accepts, and
a run longer than 15 characters can never be closed.  In the closing
alternatives, `.` never matches a line terminator (no `s` flag) while the
trailing `$` (no `m` flag) only matches at the end of the input, so an
alternative `X.*` succeeds exactly when the remainder starts with `X` and
the characters after `X` contain no line terminator.  Returns the captured
username. -/
def matchHostUser (host : List Char) (s : List Char) : Option (List Char) :=
  match dropPfx (host ++ ['/']) (dropWww s) with
  | none => none
  | some r =>
    let u := r.takeWhile isWordChar
    let rest := r.dropWhile isWordChar
    if 1 ≤ u.length ∧ u.length ≤ 15 then
      match rest with
      | [] => some u
      | c :: tail =>
        if (c == '/' || c == '?' || c == '#') && tail.all (fun d => !isLineTerm d) then
          some u
        else none
    else none

/-- One full pattern of `URLValidator.URL_PATTERNS`, parameterised by the
host literal (`x.com` or `twitter.com`). -/
def matchUrlPattern (host : List Char) (s : List Char) : Option (List Char) :=
  match matchScheme s with
  | none => none
  | some r => matchHostUser host r

/-- `URLValidator.USERNAME_PATTERN = /^[a-zA-Z0-9_]{1,15}$/`. -/
def usernamePattern (u : List Char) : Prop :=
  (1 ≤ u.length ∧ u.length ≤ 15) ∧ u.all isWordChar = true

instance (u : List Char) : Decidable (usernamePattern u) := by
  unfold usernamePattern; infer_instance

/-- The fragment regex `validateProfileUrl` builds after a successful match:
`^https?:\/\/(www\.)?(x|twitter)\.com\/USERNAME#([^/\?]*)` (not anchored at
the end).  Returns the capture group `[^/\?]*` — the maximal run of
characters after `#` containing neither `/` nor `?` — when the regex
matches the input. -/
def fragmentCapture (u : List Char) (s : List Char) : Option (List Char) :=
  match matchScheme s with
  | none => none
  | some r =>
    let r2 := dropWww r
    match dropPfx ("x.com/".toList ++ u ++ ['#']) r2 with
    | some rest => some (rest.takeWhile (fun c => !(c == '/' || c == '?')))
    | none =>
      match dropPfx ("twitter.com/".toList ++ u ++ ['#']) r2 with
      | some rest => some (rest.takeWhile (fun c => !(c == '/' || c == '?')))
      | none => none

/-- Result record of `URLValidator.validateProfileUrl`. -/
structure URLValidationResult where
  isValid : Bool
  normalizedUrl : Option (List Char) := none
  username : Option (List Char) := none
  error : Option (List Char) := none
deriving DecidableEq, Repr

def errRequired : List Char := "URL is required and must be a string".toList

def errEmpty : List Char := "URL cannot be empty".toList

def errUsername : List Char :=
  "Invalid username format. Username must be 1-15 characters long and contain only letters, numbers, and underscores.".toList

def errAmbiguous : List Char :=
  "Invalid URL format. Ambiguous fragment that could be part of username.".toList

def errFormat : List Char :=
  "Invalid X profile URL format. Expected format: https://x.com/username or https://twitter.com/username".toList

/-- The loop over `URL_PATTERNS`: the x.com pattern is tried first, then the
twitter.com pattern; the first match wins. -/
def firstPatternMatch (trimmedUrl : List Char) : Option (List Char) :=
  match matchUrlPattern "x.com".toList trimmedUrl with
  | some u => some u
  | none => matchUrlPattern "twitter.com".toList trimmedUrl

/-- The body of the pattern loop in `validateProfileUrl` once a pattern has
matched and captured `u`:
the `USERNAME_PATTERN` re-check, the ambiguous-fragment rejection, and the
normalization `https://x.com/USERNAME`. -/
def handleMatch (trimmedUrl u : List Char) : URLValidationResult :=
  if ¬ usernamePattern u then
    { isValid := false, error := some errUsername }
  else
    match fragmentCapture u trimmedUrl with
    | some fragment =>
      if fragment ≠ [] ∧ fragment.length ≤ 8 ∧ fragment.all isWordChar = true ∧
          fragment ≠ "section".toList then
        { isValid := false, error := some errAmbiguous }
      else
        { isValid := true,
          normalizedUrl := some ("https://x.com/".toList ++ u),
          username := some u }
    | none =>
      { isValid := true,
        normalizedUrl := some ("https://x.com/".toList ++ u),
        username := some u }

/-- `URLValidator.validateProfileUrl` from `src/utils/urlValidator.ts`
(the input is typed `String`, so the `typeof` guard reduces to the
emptiness check of the JS falsiness test `!url`). -/
def validateProfileUrlCore (url : List Char) : URLValidationResult :=
  if url.isEmpty then
    { isValid := false, error := some errRequired }
  else
    let trimmedUrl := jsTrim url
    if trimmedUrl.isEmpty then
      { isValid := false, error := some errEmpty }
    else
      match firstPatternMatch trimmedUrl with
      | some u => handleMatch trimmedUrl u
      | none => { isValid := false, error := some errFormat }

/-- String-level entry point of the validator. -/
def validateProfileUrl (url : String) : URLValidationResult :=
  validateProfileUrlCore url.toList

/-! ## JavaScript numbers

Finite values are modelled exactly as rationals; NaN and the infinities are
explicit constructors, because `parseFloat`/`parseInt` produce NaN on
unparseable input and division by zero produces an infinity. -/

/-- A JavaScript number: an exact rational, NaN, or an infinity. -/
inductive JSNum where
  | nan : JSNum
  | inf : JSNum
  | negInf : JSNum
  | finite : ℚ → JSNum
deriving DecidableEq, Repr

/-- JS addition. -/
def jsAdd : JSNum → JSNum → JSNum
  | .nan, _ => .nan
  | _, .nan => .nan
  | .finite a, .finite b => .finite (a + b)
  | .inf, .negInf => .nan
  | .negInf, .inf => .nan
  | .inf, _ => .inf
  | _, .inf => .inf
  | .negInf, _ => .negInf
  | _, .negInf => .negInf

/-- JS multiplication. -/
def jsMul : JSNum → JSNum → JSNum
  | .nan, _ => .nan
  | _, .nan => .nan
  | .finite a, .finite b => .finite (a * b)
  | .finite a, .inf => if a = 0 then .nan else if 0 < a then .inf else .negInf
  | .inf, .finite a => if a = 0 then .nan else if 0 < a then .inf else .negInf
  | .finite a, .negInf => if a = 0 then .nan else if 0 < a then .negInf else .inf
  | .negInf, .finite a => if a = 0 then .nan else if 0 < a then .negInf else .inf
  | .inf, .inf => .inf
  | .inf, .negInf => .negInf
  | .negInf, .inf => .negInf
  | .negInf, .negInf => .inf

/-- JS division (rationals carry no signed zero, so a zero divisor is
treated as positive zero, which is the only case arising here). -/
def jsDiv : JSNum → JSNum → JSNum
  | .nan, _ => .nan
  | _, .nan => .nan
  | .finite a, .finite b =>
    if b = 0 then (if a = 0 then .nan else if 0 < a then .inf else .negInf)
    else .finite (a / b)
  | .inf, .finite b => if 0 ≤ b then .inf else .negInf
  | .negInf, .finite b => if 0 ≤ b then .negInf else .inf
  | .finite _, .inf => .finite 0
  | .finite _, .negInf => .finite 0
  | _, _ => .nan

/-- JS falsiness of a number (`NaN` and `0` are falsy). -/
def jsFalsy : JSNum → Bool
  | .nan => true
  | .finite a => a == 0
  | _ => false

/-- Numeric value of a digit run (most significant first). -/
def digitsToNat (ds : List Char) : ℕ :=
  ds.foldl (fun a c => a * 10 + (c.toNat - '0'.toNat)) 0

/-- Splits an optional JS sign character off the input. -/
def splitSign (s : List Char) : Bool × List Char :=
  match s with
  | '+' :: r => (false, r)
  | '-' :: r => (true, r)
  | r => (false, r)

/-- The optional exponent part `[eE][+-]?digits` of a JS decimal literal;
an incomplete exponent is not consumed (`parseFloat` keeps the longest
valid literal prefix). -/
def applyExponent (mant : ℚ) (s : List Char) : ℚ :=
  match s with
  | c :: r =>
    if c == 'e' || c == 'E' then
      let sr := splitSign r
      let ds := sr.2.takeWhile Char.isDigit
      if ds.isEmpty then mant
      else if sr.1 then mant / (10 : ℚ) ^ digitsToNat ds
      else mant * (10 : ℚ) ^ digitsToNat ds
    else mant
  | [] => mant

/-- The unsigned decimal part `digits[.digits][exponent]` of a JS decimal
literal: `none` when no digit occurs before the exponent (NaN). -/
def parseDecimalMag (s : List Char) : Option ℚ :=
  let ip := s.takeWhile Char.isDigit
  let r1 := s.dropWhile Char.isDigit
  let fr :=
    match r1 with
    | '.' :: r => (r.takeWhile Char.isDigit, r.dropWhile Char.isDigit)
    | _ => ([], r1)
  if ip.isEmpty && fr.1.isEmpty then none
  else
    some (applyExponent ((digitsToNat ip : ℚ) + (digitsToNat fr.1 : ℚ) / (10 : ℚ) ^ fr.1.length) fr.2)

/-- JS `parseFloat`: skip leading whitespace, optional sign, then the
longest prefix that is `Infinity` or a decimal literal; NaN otherwise. -/
def jsParseFloat (s : List Char) : JSNum :=
  let t := s.dropWhile Char.isWhitespace
  let sr := splitSign t
  if ("Infinity".toList).isPrefixOf sr.2 then (if sr.1 then .negInf else .inf)
  else
    match parseDecimalMag sr.2 with
    | none => .nan
    | some q => .finite (if sr.1 then -q else q)

/-- JS `parseInt(s, 10)`: skip leading whitespace, optional sign, then a
nonempty run of decimal digits; NaN otherwise. -/
def jsParseInt (s : List Char) : JSNum :=
  let t := s.dropWhile Char.isWhitespace
  let sr := splitSign t
  let ds := sr.2.takeWhile Char.isDigit
  if ds.isEmpty then .nan
  else .finite (if sr.1 then -(digitsToNat ds : ℚ) else (digitsToNat ds : ℚ))

/-- `ContentScript.parseCount` from `src/content/content.ts`: strip commas,
multiply by 1e3/1e6/1e9 on a trailing `K`/`M`/`B`, else `parseInt(s,10) || 0`.
`endsWith` is the last-character test and `slice(0, -1)` is `dropLast`. -/
def parseCount (countStr : List Char) : JSNum :=
  let cleanStr := countStr.filter (fun c => c != ',')
  if cleanStr.getLast? == some 'K' then
    jsMul (jsParseFloat cleanStr.dropLast) (.finite 1000)
  else if cleanStr.getLast? == some 'M' then
    jsMul (jsParseFloat cleanStr.dropLast) (.finite 1000000)
  else if cleanStr.getLast? == some 'B' then
    jsMul (jsParseFloat cleanStr.dropLast) (.finite 1000000000)
  else
    let v := jsParseInt cleanStr
    if jsFalsy v then .finite 0 else v

/-! ## URL constructors used by the universal theorems about the validator -/

/-- The scheme prefix of a profile URL (`https://` or `http://`). -/
def schemeChars (secure : Bool) : List Char :=
  if secure then "https://".toList else "http://".toList

/-- Builds a profile URL from its independent degrees of freedom: scheme,
optional `www.`, host alias (`x.com` or `twitter.com`), first path segment,
and the remaining suffix (extra path, query string, or fragment). -/
def mkProfileUrl (secure www hostX : Bool) (seg suffix : List Char) : List Char :=
  schemeChars secure ++ (if www then "www.".toList else []) ++
    (if hostX then "x.com/".toList else "twitter.com/".toList) ++ seg ++ suffix

/-- The optional `www.` component. -/
def wwwPart (www : Bool) : List Char :=
  if www then "www.".toList else []

/-- The host token handed to `matchUrlPattern` for each pattern. -/
def hostTok (hostX : Bool) : List Char :=
  if hostX then "x.com".toList else "twitter.com".toList

/-- The host component of a built URL, including the mandatory slash. -/
def hostChars (hostX : Bool) : List Char :=
  hostTok hostX ++ ['/']

/-- A suffix the URL grammar closes a username with: nothing, or an extra
path (`/...`), query (`?...`) or fragment (`#...`). -/
def goodSuffix (suffix : List Char) : Prop :=
  suffix = [] ∨ ∃ c r, suffix = c :: r ∧ (c = '/' ∨ c = '?' ∨ c = '#')

/-- Whether a suffix can be consumed by a closing alternative `X.*$` of the
URL patterns: the characters after its delimiter contain no line terminator
(an empty suffix is consumed by the `$` alternative). -/
def suffixClean : List Char → Prop
  | [] => True
  | _ :: tail => tail.all (fun d => !isLineTerm d) = true

instance : (suffix : List Char) → Decidable (suffixClean suffix)
  | [] => inferInstanceAs (Decidable True)
  | _ :: _ => inferInstanceAs (Decidable (_ = true))

/-- The ambiguous-fragment condition of `validateProfileUrl` on a captured
fragment: nonempty, at most 8 characters, word characters only, and not the
safe-word `section`. -/
def fragCond (f : List Char) : Prop :=
  f ≠ [] ∧ f.length ≤ 8 ∧ f.all isWordChar = true ∧ f ≠ "section".toList

instance (f : List Char) : Decidable (fragCond f) := by
  unfold fragCond; infer_instance

/-- Whether the suffix of a constructed URL triggers the ambiguous-fragment
rejection: only a fragment directly after the username is examined, and
only its maximal `[^/\?]*` run is captured. -/
def fragRejects : List Char → Prop
  | c :: frag => c = '#' ∧ fragCond (frag.takeWhile (fun c => !(c == '/' || c == '?')))
  | [] => False

instance : (suffix : List Char) → Decidable (fragRejects suffix)
  | [] => inferInstanceAs (Decidable False)
  | _ :: _ => inferInstanceAs (Decidable (_ ∧ _))

/-! ## JavaScript values and profile validation (`src/utils/validation.ts`) -/

/-- An untyped JavaScript value as received by `validateXProfile` for one
field (numbers are modelled as integers; the claims do not exercise number
formatting). -/
inductive JSVal where
  | undef : JSVal
  | jsNull : JSVal
  | str : List Char → JSVal
  | num : ℤ → JSVal
  | boolean : Bool → JSVal
deriving DecidableEq, Repr

/-- JS truthiness of a value. -/
def jsTruthy : JSVal → Bool
  | .undef => false
  | .jsNull => false
  | .str s => !s.isEmpty
  | .num n => n != 0
  | .boolean b => b

/-- `typeof v === 'string'`. -/
def isStringType : JSVal → Bool
  | .str _ => true
  | _ => false

/-- `v.toString()` for the defined values. -/
def jsValToStr : JSVal → List Char
  | .str s => s
  | .num n => (toString n).toList
  | .boolean b => if b then "true".toList else "false".toList
  | .undef => "undefined".toList
  | .jsNull => "null".toList

/-- The string payload of a value already known to be a string. -/
def jsValStr : JSVal → List Char
  | .str s => s
  | _ => []

/-- `v?.toString() || d`: optional chaining short-circuits on
`undefined`/`null`, then the JS or-default applies on an empty string. -/
def strOrDefault (v : JSVal) (d : List Char) : List Char :=
  match v with
  | .undef => d
  | .jsNull => d
  | w => if (jsValToStr w).isEmpty then d else jsValToStr w

/-- The guard `!data[field] || typeof data[field] !== 'string'` applied to
one required field (negated: the field passes). -/
def requiredOk (v : JSVal) : Bool :=
  jsTruthy v && isStringType v

/-- The raw object passed to `validateXProfile`; an absent property reads
as `undefined`.  The `extractedAt` timestamp is out of scope (wall-clock
values are not modelled). -/
structure XProfileInput where
  username : JSVal := .undef
  displayName : JSVal := .undef
  bio : JSVal := .undef
  avatarUrl : JSVal := .undef
  profileUrl : JSVal := .undef
  verified : JSVal := .undef
  followerCount : JSVal := .undef
  followingCount : JSVal := .undef
deriving DecidableEq, Repr

/-- The `XProfile` record built by `validateXProfile`. -/
structure XProfileM where
  username : List Char
  displayName : List Char
  bio : Option (List Char)
  avatarUrl : List Char
  profileUrl : List Char
  verified : Bool
  followerCount : List Char
  followingCount : List Char
deriving DecidableEq, Repr

/-- `data.bio?.trim() || undefined` (a non-string `bio` would throw in JS;
the claims never pass one, and it is modelled as absent). -/
def bioField : JSVal → Option (List Char)
  | .str s => if (jsTrim s).isEmpty then none else some (jsTrim s)
  | _ => none

/-- `validateXProfile` from `src/utils/validation.ts`: `none` models the
`null` result; `data = none` models a missing or non-object argument.  The
four required fields are checked in order with early return, which is the
conjunction below. -/
def validateXProfile (data : Option XProfileInput) : Option XProfileM :=
  match data with
  | none => none
  | some d =>
    if requiredOk d.username && requiredOk d.displayName &&
        requiredOk d.avatarUrl && requiredOk d.profileUrl then
      some { username := jsTrim (jsValStr d.username),
             displayName := jsTrim (jsValStr d.displayName),
             bio := bioField d.bio,
             avatarUrl := jsValStr d.avatarUrl,
             profileUrl := jsValStr d.profileUrl,
             verified := jsTruthy d.verified,
             followerCount := strOrDefault d.followerCount "0".toList,
             followingCount := strOrDefault d.followingCount "0".toList }
    else none

/-- A profile object whose `username` is a whitespace-only string and whose
other required fields are ordinary strings. -/
def c10input : XProfileInput :=
  { username := .str " ".toList, displayName := .str "Alice".toList,
    avatarUrl := .str "https://pbs.twimg.com/a.jpg".toList,
    profileUrl := .str "https://x.com/alice".toList }

/-! ## Batch fetching (`ProfileService.fetchBatchProfiles`) -/

/-- A typed API error (`createAPIError` payload; only code and message are
relevant to the claims). -/
structure APIErrorM where
  code : List Char
  message : List Char
deriving DecidableEq, Repr

/-- The `APIResponse` record returned by `fetchProfile`: a success flag
with optional data and optional error, exactly the three fields the batch
loop inspects. -/
structure APIResponseM (D : Type) where
  success : Bool
  data : Option D := none
  error : Option APIErrorM := none
deriving DecidableEq, Repr

/-- `BatchProfileResult`. -/
structure BatchProfileResultM (D : Type) where
  successful : List D
  failed : List (List Char × APIErrorM)
deriving DecidableEq, Repr

/-- Every return path of `fetchProfile` produces data on success and an
error object on failure. -/
def responseWellFormed (r : APIResponseM D) : Bool :=
  if r.success then r.data.isSome else r.error.isSome

/-- One iteration of the `fetchBatchProfiles` loop:
`if (response.success && response.data) push successful;
else if (response.error) push failed`. -/
def fetchBatchStep (result : BatchProfileResultM D) (it : List Char × APIResponseM D) :
    BatchProfileResultM D :=
  match it.2.success, it.2.data with
  | true, some d => { result with successful := result.successful ++ [d] }
  | _, _ =>
    match it.2.error with
    | some e => { result with failed := result.failed ++ [(it.1, e)] }
    | none => result

/-- `ProfileService.fetchBatchProfiles`: the sequential `for` loop over the
URLs, each paired with the `APIResponse` its awaited `fetchProfile` call
produced. -/
def fetchBatchProfiles (items : List (List Char × APIResponseM D)) : BatchProfileResultM D :=
  items.foldl fetchBatchStep { successful := [], failed := [] }

/-! ## Batch name-tag generation
(`NameTagGenerator.generateMultipleNameTags` and the
`POST /generate-multiple` route handler) -/

/-- `NameTagGenerator.generateMultipleNameTags`: per-URL extraction
failures (`extract u = none`) are caught, logged and skipped; the contents
list keeps input order; an empty contents list throws
`No valid profiles could be processed`; otherwise the PDF is generated from
the contents (returned here in place of the opaque buffer). -/
def generateMultipleNameTags (urls : List (List Char)) (extract : List Char → Option α) :
    Except (List Char) (List α) :=
  let contents := urls.filterMap extract
  if contents.length = 0 then .error "No valid profiles could be processed".toList
  else .ok contents

/-- The successful response of the `/generate-multiple` route: the
`X-Invalid-URLs` header content and the contents rendered into the PDF. -/
structure MultipleResponse (α : Type) where
  invalidUrls : List (List Char)
  contents : List α
deriving DecidableEq, Repr

/-- The `POST /generate-multiple` handler from `src/api/routes/nameTag.ts`
(the request body is already an array of strings here, so the
`Array.isArray` guard is statically satisfied).  The single validation loop
partitioning into `validUrls`/`invalidUrls` is expressed as two filters. -/
def generateMultipleHandler (profileUrls : List (List Char)) (extract : List Char → Option α) :
    Except (List Char) (MultipleResponse α) :=
  if profileUrls.length = 0 then .error "At least one profile URL is required".toList
  else if profileUrls.length > 20 then .error "Maximum 20 profiles can be processed at once".toList
  else
    let validUrls := profileUrls.filter (fun u => (validateProfileUrlCore u).isValid)
    let invalidUrls := profileUrls.filter (fun u => !(validateProfileUrlCore u).isValid)
    if validUrls.length = 0 then .error "No valid profile URLs provided".toList
    else
      match generateMultipleNameTags validUrls extract with
      | .error e => .error e
      | .ok contents => .ok { invalidUrls := invalidUrls, contents := contents }

/-- A concrete extraction oracle for the batch counterexamples: the `alice`
profile extracts successfully, every other URL fails extraction. -/
def c8extract : List Char → Option ℕ :=
  fun u => if u = "https://x.com/alice".toList then some 1 else none

/-! ## Layout engine of `BrowserPDFService.generatePDF` -/

/-- jsPDF A4 portrait page width in millimetres. -/
def bpPageWidth : ℚ := 210

/-- jsPDF A4 portrait page height in millimetres. -/
def bpPageHeight : ℚ := 297

/-- `const margin = 20`. -/
def bpMargin : ℚ := 20

/-- `const nameTagWidth = 85`. -/
def bpNameTagWidth : ℚ := 85

/-- `const nameTagHeight = 54`. -/
def bpNameTagHeight : ℚ := 54

/-- `const spacing = 10`. -/
def bpSpacing : ℚ := 10

/-- `Math.floor` of a non-negative rational, as a natural number. -/
def ratFloorNat (q : ℚ) : ℕ := (⌊q⌋).toNat

/-- `itemsPerRow = Math.floor((pageWidth - 2*margin) / (nameTagWidth + spacing))`. -/
def bpItemsPerRow : ℕ :=
  ratFloorNat ((bpPageWidth - 2 * bpMargin) / (bpNameTagWidth + bpSpacing))

/-- `itemsPerColumn = Math.floor((pageHeight - 2*margin) / (nameTagHeight + spacing))`. -/
def bpItemsPerColumn : ℕ :=
  ratFloorNat ((bpPageHeight - 2 * bpMargin) / (bpNameTagHeight + bpSpacing))

/-- `itemsPerPage = itemsPerRow * itemsPerColumn`. -/
def bpItemsPerPage : ℕ := bpItemsPerRow * bpItemsPerColumn

/-- One card placement of the layout loop. -/
structure CardPlacement where
  page : ℕ
  row : ℕ
  col : ℕ
  x : ℚ
  y : ℚ
deriving DecidableEq, Repr

/-- The placement the loop body of `generatePDF` computes for card `i`
(`currentPosition` equals `i`, since it is incremented once per card). -/
def placeCard (ipr ipp : ℕ) (margin cardW cardH spacing : ℚ) (i : ℕ) : CardPlacement :=
  let positionOnPage := i % ipp
  { page := i / ipp,
    row := positionOnPage / ipr,
    col := positionOnPage % ipr,
    x := margin + ((positionOnPage % ipr : ℕ) : ℚ) * (cardW + spacing),
    y := margin + ((positionOnPage / ipr : ℕ) : ℚ) * (cardH + spacing) }

/-- All placements of a run of `generatePDF` over `n` cards. -/
def layoutPlacements (ipr ipp : ℕ) (margin cardW cardH spacing : ℚ) (n : ℕ) :
    List CardPlacement :=
  (List.range n).map (placeCard ipr ipp margin cardW cardH spacing)

/-- The `currentPage` / `pdf.addPage()` bookkeeping of the loop: the state
is `(currentPage, addPage call count)`. -/
def bpPageState (ipp : ℕ) (n : ℕ) : ℕ × ℕ :=
  (List.range n).foldl
    (fun st i => if i / ipp > st.1 then (i / ipp, st.2 + 1) else st) (0, 0)

/-- Number of pages of the produced document: jsPDF starts with one page
and each `addPage` call appends one. -/
def bpPageCount (ipp : ℕ) (n : ℕ) : ℕ := (bpPageState ipp n).2 + 1

/-- The full layout plan of `BrowserPDFService.generatePDF` for `n`
canvases, with the A4 constants of the source. -/
def browserGeneratePDFPlan (n : ℕ) : List CardPlacement × ℕ :=
  (layoutPlacements bpItemsPerRow bpItemsPerPage bpMargin bpNameTagWidth bpNameTagHeight
      bpSpacing n,
    bpPageCount bpItemsPerPage n)

/-! ## `PDFGenerator.generateMultipleNameTags` (the second service in
`src/services/ProfileService.ts`) -/

/-- Paper sizes accepted by `generateMultipleNameTags`. -/
inductive PaperSize where
  | letter : PaperSize
  | a4 : PaperSize
deriving DecidableEq, Repr

/-- Paper width in points (`LETTER: 612, A4: 595`). -/
def paperWidth : PaperSize → ℚ
  | .letter => 612
  | .a4 => 595

/-- Paper height in points (`LETTER: 792, A4: 842`). -/
def paperHeight : PaperSize → ℚ
  | .letter => 792
  | .a4 => 842

/-- The JS or-default `options.v || d` for a count (`0` is falsy). -/
def jsOrNat (o : Option ℕ) (d : ℕ) : ℕ :=
  match o with
  | some v => if v = 0 then d else v
  | none => d

/-- The JS or-default `options.v || d` for a measure (`0` is falsy). -/
def jsOrRat (o : Option ℚ) (d : ℚ) : ℚ :=
  match o with
  | some v => if v = 0 then d else v
  | none => d

/-- The tag width of a `PDFGenerator`: `options.width || 252`. -/
def pdfGenWidth (o : Option ℚ) : ℚ := jsOrRat o 252

/-- The tag height of a `PDFGenerator`: `options.height || 162`. -/
def pdfGenHeight (o : Option ℚ) : ℚ := jsOrRat o 162

/-- The tag positions emitted by `PDFGenerator.generateMultipleNameTags`.
`columns`/`rows`/`spacing` take their or-defaults (2/4/10); `spacing` is
computed but never used by the position math.  The spacing actually used is
`horizontalSpace = (pageWidth - columns*tagWidth) / (columns - 1)` (and the
vertical analogue), computed in JS arithmetic: a single column divides by
zero.  The nested page/row/column loops advance `contentIndex` once per
placement, so card `i` lands on page `i / (rows*columns)` at row
`(i % (rows*columns)) / columns` and column `(i % (rows*columns)) % columns`,
at `x = 36 + col*(tagWidth + horizontalSpace)`,
`y = 36 + row*(tagHeight + verticalSpace)`. -/
def generateMultiplePositions (paper : PaperSize) (columnsOpt rowsOpt : Option ℕ)
    (spacingOpt : Option ℚ) (tagW tagH : ℚ) (n : ℕ) : List (JSNum × JSNum) :=
  let columns := jsOrNat columnsOpt 2
  let rows := jsOrNat rowsOpt 4
  let pageWidth := paperWidth paper - 72
  let pageHeight := paperHeight paper - 72
  let horizontalSpace :=
    jsDiv (.finite (pageWidth - (columns : ℚ) * tagW)) (.finite ((columns : ℚ) - 1))
  let verticalSpace :=
    jsDiv (.finite (pageHeight - (rows : ℚ) * tagH)) (.finite ((rows : ℚ) - 1))
  (List.range n).map (fun i =>
    let p := i % (rows * columns)
    (jsAdd (.finite 36)
        (jsMul (.finite ((p % columns : ℕ) : ℚ)) (jsAdd (.finite tagW) horizontalSpace)),
      jsAdd (.finite 36)
        (jsMul (.finite ((p / columns : ℕ) : ℚ)) (jsAdd (.finite tagH) verticalSpace))))

/-- The even spacing `generateMultipleNameTags` computes along one axis:
`(pageExtent - 72 - count*size) / (count - 1)`. -/
def gmSpace (P : ℚ) (count : ℕ) (size : ℚ) : ℚ :=
  (P - 72 - (count : ℚ) * size) / ((count : ℚ) - 1)

/-- The coordinate of slot `idx` along one axis:
`36 + idx * (size + space)`. -/
def gmPos (P : ℚ) (count : ℕ) (size : ℚ) (idx : ℕ) : ℚ :=
  36 + (idx : ℚ) * (size + gmSpace P count size)

/-! ## `PDFService.generateMultipleNameTagsPDF` -/

/-- The metadata of a `PDFGenerationResult` relevant to the claims. -/
structure PDFGenResultMeta where
  nameTagCount : ℕ
  pageCount : ℕ
deriving DecidableEq, Repr

/-- `PDFService.generateMultipleNameTagsPDF`: an empty profile list throws
`No profiles provided for PDF generation`; otherwise the page count is
`Math.ceil(profiles.length / nameTagsPerPage)` (modelled for the positive
`nameTagsPerPage` the options carry, default 6). -/
def generateMultipleNameTagsPDF (profiles : List α) (nameTagsPerPage : ℕ) :
    Except (List Char) PDFGenResultMeta :=
  if profiles.length = 0 then .error "No profiles provided for PDF generation".toList
  else .ok { nameTagCount := profiles.length,
             pageCount := (profiles.length + nameTagsPerPage - 1) / nameTagsPerPage }

/-! ## Lemmas about the URL validator -/

theorem dropPfx_nil (s : List Char) : dropPfx [] s = some s := rfl

theorem dropPfx_cons (p : Char) (ps : List Char) (c : Char) (cs : List Char) :
    dropPfx (p :: ps) (c :: cs) = if p == c then dropPfx ps cs else none := rfl

theorem dropPfx_cons_nil (p : Char) (ps : List Char) : dropPfx (p :: ps) [] = none := rfl

theorem dropPfx_append_left (p q s : List Char) :
    dropPfx (p ++ q) (p ++ s) = dropPfx q s := by
  induction p with
  | nil => rfl
  | cons c cs ih => simp [dropPfx, ih]

theorem dropPfx_self (p s : List Char) : dropPfx p (p ++ s) = some s := by
  have h := dropPfx_append_left p [] s
  simpa using h

theorem matchScheme_append (secure : Bool) (r : List Char) :
    matchScheme (schemeChars secure ++ r) = some r := by
  cases secure
  · show matchScheme ('h' :: 't' :: 't' :: 'p' :: ':' :: '/' :: '/' :: r) = some r
    simp [matchScheme, dropPfx]
  · show matchScheme ('h' :: 't' :: 't' :: 'p' :: 's' :: ':' :: '/' :: '/' :: r) = some r
    simp [matchScheme, dropPfx]

theorem dropWww_eval (www hostX : Bool) (t : List Char) :
    dropWww (wwwPart www ++ (hostChars hostX ++ t)) = hostChars hostX ++ t := by
  cases www
  · cases hostX
    · show dropWww ('t' :: 'w' :: 'i' :: 't' :: 't' :: 'e' :: 'r' :: '.' :: 'c' :: 'o' :: 'm' :: '/' :: t)
        = 't' :: 'w' :: 'i' :: 't' :: 't' :: 'e' :: 'r' :: '.' :: 'c' :: 'o' :: 'm' :: '/' :: t
      simp [dropWww, dropPfx]
    · show dropWww ('x' :: '.' :: 'c' :: 'o' :: 'm' :: '/' :: t)
        = 'x' :: '.' :: 'c' :: 'o' :: 'm' :: '/' :: t
      simp [dropWww, dropPfx]
  · show dropWww ('w' :: 'w' :: 'w' :: '.' :: (hostChars hostX ++ t)) = hostChars hostX ++ t
    simp [dropWww, dropPfx]

theorem toList_www : "www.".toList = ['w', 'w', 'w', '.'] := rfl

theorem toList_xcom : "x.com".toList = ['x', '.', 'c', 'o', 'm'] := rfl

theorem toList_xcomSlash : "x.com/".toList = ['x', '.', 'c', 'o', 'm', '/'] := rfl

theorem toList_twitter : "twitter.com".toList
    = ['t', 'w', 'i', 't', 't', 'e', 'r', '.', 'c', 'o', 'm'] := rfl

theorem toList_twitterSlash : "twitter.com/".toList
    = ['t', 'w', 'i', 't', 't', 'e', 'r', '.', 'c', 'o', 'm', '/'] := rfl

theorem mkProfileUrl_eq (secure www hostX : Bool) (seg suffix : List Char) :
    mkProfileUrl secure www hostX seg suffix =
      schemeChars secure ++ (wwwPart www ++ (hostChars hostX ++ (seg ++ suffix))) := by
  cases www <;> cases hostX <;>
    simp [mkProfileUrl, wwwPart, hostChars, hostTok, toList_www, toList_xcom, toList_xcomSlash,
      toList_twitter, toList_twitterSlash, List.append_assoc]

theorem takeWhile_append_all (p : Char → Bool) (u s : List Char)
    (hu : ∀ c ∈ u, p c = true)
    (hs : ∀ c r, s = c :: r → p c = false) :
    (u ++ s).takeWhile p = u ∧ (u ++ s).dropWhile p = s := by
  induction u with
  | nil =>
    constructor
    · cases s with
      | nil => rfl
      | cons c r => simp [List.takeWhile_cons, hs c r rfl]
    · cases s with
      | nil => rfl
      | cons c r => simp [List.dropWhile_cons, hs c r rfl]
  | cons a u ih =>
    have ha : p a = true := hu a (List.mem_cons_self a u)
    have h := ih (fun c hc => hu c (List.mem_cons_of_mem a hc))
    constructor
    · simp [List.cons_append, List.takeWhile_cons, ha, h.1]
    · simp [List.cons_append, List.dropWhile_cons, ha, h.2]

theorem matchHostUser_eval (hostX www : Bool) (t : List Char) :
    matchHostUser (hostTok hostX) (wwwPart www ++ (hostChars hostX ++ t)) =
      (let u := t.takeWhile isWordChar
       let rest := t.dropWhile isWordChar
       if 1 ≤ u.length ∧ u.length ≤ 15 then
         match rest with
         | [] => some u
         | c :: tail =>
           if (c == '/' || c == '?' || c == '#') && tail.all (fun d => !isLineTerm d) then
             some u
           else none
       else none) := by
  unfold matchHostUser
  rw [dropWww_eval]
  rw [show hostChars hostX ++ t = (hostTok hostX ++ ['/']) ++ t from by simp [hostChars]]
  rw [dropPfx_self]

theorem matchHostUser_other (hostX www : Bool) (t : List Char) :
    matchHostUser (hostTok (!hostX)) (wwwPart www ++ (hostChars hostX ++ t)) = none := by
  unfold matchHostUser
  rw [dropWww_eval]
  cases hostX <;>
    simp [hostTok, hostChars, toList_xcom, toList_twitter, List.cons_append, List.nil_append,
      dropPfx_cons]

theorem toList_https : "https://".toList = ['h', 't', 't', 'p', 's', ':', '/', '/'] := rfl

theorem toList_httpSlash : "http://".toList = ['h', 't', 't', 'p', ':', '/', '/'] := rfl

theorem fragmentCapture_mk (secure www hostX : Bool) (u suffix : List Char) :
    fragmentCapture u (mkProfileUrl secure www hostX u suffix) =
      match dropPfx ['#'] suffix with
      | some rest => some (rest.takeWhile (fun c => !(c == '/' || c == '?')))
      | none => none := by
  unfold fragmentCapture
  rw [mkProfileUrl_eq, matchScheme_append]
  simp only [dropWww_eval]
  cases hostX
  · have hx : dropPfx ("x.com/".toList ++ u ++ ['#']) (hostChars false ++ (u ++ suffix))
        = none := by
      simp [hostChars, hostTok, toList_xcomSlash, toList_twitter, List.cons_append, dropPfx_cons]
    have ht : dropPfx ("twitter.com/".toList ++ u ++ ['#']) (hostChars false ++ (u ++ suffix))
        = dropPfx ['#'] suffix := by
      rw [show hostChars false ++ (u ++ suffix) = ("twitter.com/".toList ++ u) ++ suffix from by
        simp [hostChars, hostTok, toList_twitterSlash, toList_twitter, List.append_assoc]]
      exact dropPfx_append_left _ _ _
    rw [hx, ht]
  · have hx : dropPfx ("x.com/".toList ++ u ++ ['#']) (hostChars true ++ (u ++ suffix))
        = dropPfx ['#'] suffix := by
      rw [show hostChars true ++ (u ++ suffix) = ("x.com/".toList ++ u) ++ suffix from by
        simp [hostChars, hostTok, toList_xcomSlash, toList_xcom, List.append_assoc]]
      exact dropPfx_append_left _ _ _
    rw [hx]
    rcases hh : dropPfx ['#'] suffix with _ | rest
    · have htw : dropPfx ("twitter.com/".toList ++ u ++ ['#']) (hostChars true ++ (u ++ suffix))
          = none := by
        simp [hostChars, hostTok, toList_twitterSlash, toList_xcom, List.cons_append, dropPfx_cons]
      rw [htw]
    · rfl

theorem mkProfileUrl_ne_nil (secure www hostX : Bool) (seg suffix : List Char) :
    (mkProfileUrl secure www hostX seg suffix).isEmpty = false := by
  rw [mkProfileUrl_eq]
  cases secure <;>
    simp [schemeChars, toList_https, toList_httpSlash, List.cons_append]

theorem goodSuffix_head_not_word (suffix : List Char) (hsuf : goodSuffix suffix) :
    ∀ c r, suffix = c :: r → isWordChar c = false := by
  intro c r hcr
  rcases hsuf with rfl | ⟨d, t, hdt, hd⟩
  · cases hcr
  · rw [hcr] at hdt
    injection hdt with h1 h2
    subst h1
    rcases hd with rfl | rfl | rfl <;> decide

theorem matchUrlPattern_mk_same (secure www hostX : Bool) (u suffix : List Char)
    (hw : ∀ c ∈ u, isWordChar c = true) (h1 : 1 ≤ u.length) (h15 : u.length ≤ 15)
    (hsuf : goodSuffix suffix) (hclean : suffixClean suffix) :
    matchUrlPattern (hostTok hostX) (mkProfileUrl secure www hostX u suffix) = some u := by
  unfold matchUrlPattern
  rw [mkProfileUrl_eq, matchScheme_append]
  simp only [matchHostUser_eval]
  have htw := takeWhile_append_all isWordChar u suffix hw (goodSuffix_head_not_word suffix hsuf)
  simp only [htw.1, htw.2]
  rw [if_pos ⟨h1, h15⟩]
  rcases hsuf with rfl | ⟨c, r, rfl, hc⟩
  · rfl
  · have hr : r.all (fun d => !isLineTerm d) = true := hclean
    rcases hc with rfl | rfl | rfl <;> simp [hr]

theorem matchUrlPattern_mk_unclean (secure www hostX : Bool) (u suffix : List Char)
    (hw : ∀ c ∈ u, isWordChar c = true)
    (hsuf : goodSuffix suffix) (hncl : ¬ suffixClean suffix) :
    matchUrlPattern (hostTok hostX) (mkProfileUrl secure www hostX u suffix) = none := by
  unfold matchUrlPattern
  rw [mkProfileUrl_eq, matchScheme_append]
  simp only [matchHostUser_eval]
  have htw := takeWhile_append_all isWordChar u suffix hw (goodSuffix_head_not_word suffix hsuf)
  simp only [htw.1, htw.2]
  rcases hsuf with rfl | ⟨c, r, rfl, hc⟩
  · exact absurd trivial hncl
  · have hr : r.all (fun d => !isLineTerm d) = false := by
      rcases hb : r.all (fun d => !isLineTerm d) with _ | _
      · rfl
      · exact absurd hb hncl
    by_cases hlen : 1 ≤ u.length ∧ u.length ≤ 15
    · rw [if_pos hlen]
      simp [hr]
    · rw [if_neg hlen]

theorem matchUrlPattern_mk_other (secure www hostX : Bool) (seg suffix : List Char) :
    matchUrlPattern (hostTok (!hostX)) (mkProfileUrl secure www hostX seg suffix) = none := by
  unfold matchUrlPattern
  rw [mkProfileUrl_eq, matchScheme_append]
  simp only [matchHostUser_other]

theorem firstPatternMatch_mk (secure www hostX : Bool) (u suffix : List Char)
    (hw : ∀ c ∈ u, isWordChar c = true) (h1 : 1 ≤ u.length) (h15 : u.length ≤ 15)
    (hsuf : goodSuffix suffix) (hclean : suffixClean suffix) :
    firstPatternMatch (mkProfileUrl secure www hostX u suffix) = some u := by
  unfold firstPatternMatch
  cases hostX
  · have hx := matchUrlPattern_mk_other secure www false u suffix
    have ht := matchUrlPattern_mk_same secure www false u suffix hw h1 h15 hsuf hclean
    rw [show ("x.com".toList : List Char) = hostTok (!false) from rfl, hx,
      show ("twitter.com".toList : List Char) = hostTok false from rfl, ht]
  · have hx := matchUrlPattern_mk_same secure www true u suffix hw h1 h15 hsuf hclean
    rw [show ("x.com".toList : List Char) = hostTok true from rfl, hx]

theorem firstPatternMatch_mk_unclean (secure www hostX : Bool) (u suffix : List Char)
    (hw : ∀ c ∈ u, isWordChar c = true)
    (hsuf : goodSuffix suffix) (hncl : ¬ suffixClean suffix) :
    firstPatternMatch (mkProfileUrl secure www hostX u suffix) = none := by
  unfold firstPatternMatch
  cases hostX
  · rw [show ("x.com".toList : List Char) = hostTok (!false) from rfl,
      matchUrlPattern_mk_other,
      show ("twitter.com".toList : List Char) = hostTok false from rfl,
      matchUrlPattern_mk_unclean secure www false u suffix hw hsuf hncl]
  · rw [show ("x.com".toList : List Char) = hostTok true from rfl,
      matchUrlPattern_mk_unclean secure www true u suffix hw hsuf hncl,
      show ("twitter.com".toList : List Char) = hostTok (!true) from rfl,
      matchUrlPattern_mk_other]

theorem validateCore_mk_unclean (secure www hostX : Bool) (u suffix : List Char)
    (hw : ∀ c ∈ u, isWordChar c = true)
    (hsuf : goodSuffix suffix) (hncl : ¬ suffixClean suffix)
    (htrim : jsTrim (mkProfileUrl secure www hostX u suffix)
      = mkProfileUrl secure www hostX u suffix) :
    validateProfileUrlCore (mkProfileUrl secure www hostX u suffix) =
      { isValid := false, normalizedUrl := none, username := none,
        error := some errFormat } := by
  unfold validateProfileUrlCore
  rw [mkProfileUrl_ne_nil]
  simp only [Bool.false_eq_true, if_false, htrim, mkProfileUrl_ne_nil,
    firstPatternMatch_mk_unclean secure www hostX u suffix hw hsuf hncl]

theorem validateCore_mk (secure www hostX : Bool) (u suffix : List Char)
    (hw : ∀ c ∈ u, isWordChar c = true) (h1 : 1 ≤ u.length) (h15 : u.length ≤ 15)
    (hsuf : goodSuffix suffix)
    (htrim : jsTrim (mkProfileUrl secure www hostX u suffix)
      = mkProfileUrl secure www hostX u suffix) :
    validateProfileUrlCore (mkProfileUrl secure www hostX u suffix) =
      if suffixClean suffix then
        if fragRejects suffix then
          { isValid := false, normalizedUrl := none, username := none,
            error := some errAmbiguous }
        else
          { isValid := true, normalizedUrl := some ("https://x.com/".toList ++ u),
            username := some u, error := none }
      else
        { isValid := false, normalizedUrl := none, username := none,
          error := some errFormat } := by
  by_cases hcl : suffixClean suffix
  · rw [if_pos hcl]
    have hup : usernamePattern u := by
      refine ⟨⟨h1, h15⟩, ?_⟩
      rw [List.all_eq_true]
      exact hw
    unfold validateProfileUrlCore
    rw [mkProfileUrl_ne_nil]
    simp only [Bool.false_eq_true, if_false, htrim, mkProfileUrl_ne_nil,
      firstPatternMatch_mk secure www hostX u suffix hw h1 h15 hsuf hcl]
    unfold handleMatch
    rw [if_neg (not_not_intro hup)]
    rw [fragmentCapture_mk]
    rcases hsuf with rfl | ⟨c, r, rfl, hc⟩
    · rfl
    · rcases hc with rfl | rfl | rfl
      · rfl
      · rfl
      · show (if fragCond (r.takeWhile (fun c => !(c == '/' || c == '?'))) then _ else _)
          = (if fragRejects ('#' :: r) then _ else _)
        by_cases hfc : fragCond (r.takeWhile (fun c => !(c == '/' || c == '?')))
        · rw [if_pos hfc, if_pos (by exact ⟨rfl, hfc⟩)]
        · rw [if_neg hfc, if_neg (by
            intro hcon
            exact hfc hcon.2)]
  · rw [if_neg hcl]
    exact validateCore_mk_unclean secure www hostX u suffix hw hsuf hcl htrim

theorem dropWhile_head_false (p : Char → Bool) (l : List Char) (c : Char) (r : List Char)
    (h : l.dropWhile p = c :: r) : p c = false := by
  induction l with
  | nil => cases h
  | cons a t ih =>
    rw [List.dropWhile_cons] at h
    by_cases hp : p a = true
    · rw [if_pos hp] at h
      exact ih h
    · rw [if_neg hp] at h
      injection h with h1 _
      subst h1
      cases hpa : p a
      · rfl
      · exact absurd hpa hp

theorem matchUrlPattern_mk_badseg_same (secure www hostX : Bool) (seg suffix : List Char)
    (hbad : ∃ c ∈ seg, isWordChar c = false)
    (hnd : ∀ c ∈ seg, ¬(c = '/' ∨ c = '?' ∨ c = '#')) :
    matchUrlPattern (hostTok hostX) (mkProfileUrl secure www hostX seg suffix) = none := by
  obtain ⟨b, hbmem, hbw⟩ := hbad
  have hdrop : seg.dropWhile isWordChar ≠ [] := by
    intro hnil
    rw [List.dropWhile_eq_nil_iff] at hnil
    rw [hnil b hbmem] at hbw
    cases hbw
  obtain ⟨d, rest, hdr⟩ : ∃ d rest, seg.dropWhile isWordChar = d :: rest := by
    rcases hd : seg.dropWhile isWordChar with _ | ⟨d, rest⟩
    · exact absurd hd hdrop
    · exact ⟨d, rest, rfl⟩
  have hdw : isWordChar d = false := dropWhile_head_false isWordChar seg d rest hdr
  have hdmem : d ∈ seg := by
    have hsub := List.dropWhile_sublist (l := seg) (p := isWordChar)
    exact hsub.subset (hdr ▸ List.mem_cons_self d rest)
  have hseg : seg = seg.takeWhile isWordChar ++ (d :: rest) := by
    conv_lhs => rw [← List.takeWhile_append_dropWhile (p := isWordChar) (l := seg)]
    rw [hdr]
  have hdecomp : seg ++ suffix = seg.takeWhile isWordChar ++ (d :: (rest ++ suffix)) := by
    conv_lhs => rw [hseg]
    simp [List.append_assoc]
  have htw := takeWhile_append_all isWordChar (seg.takeWhile isWordChar)
    (d :: (rest ++ suffix))
    (fun c hc => List.mem_takeWhile_imp hc)
    (fun c r hcr => by
      injection hcr with h1 _
      subst h1
      exact hdw)
  unfold matchUrlPattern
  rw [mkProfileUrl_eq, matchScheme_append]
  simp only [matchHostUser_eval]
  rw [hdecomp]
  simp only [htw.1, htw.2]
  have hdelim : (d == '/' || d == '?' || d == '#') = false := by
    have h := hnd d hdmem
    push_neg at h
    simp [h.1, h.2.1, h.2.2]
  by_cases hlen : 1 ≤ (seg.takeWhile isWordChar).length ∧ (seg.takeWhile isWordChar).length ≤ 15
  · rw [if_pos hlen]
    simp [hdelim]
  · rw [if_neg hlen]

theorem firstPatternMatch_mk_badseg (secure www hostX : Bool) (seg suffix : List Char)
    (hbad : ∃ c ∈ seg, isWordChar c = false)
    (hnd : ∀ c ∈ seg, ¬(c = '/' ∨ c = '?' ∨ c = '#')) :
    firstPatternMatch (mkProfileUrl secure www hostX seg suffix) = none := by
  unfold firstPatternMatch
  cases hostX
  · rw [show ("x.com".toList : List Char) = hostTok (!false) from rfl,
      matchUrlPattern_mk_other,
      show ("twitter.com".toList : List Char) = hostTok false from rfl,
      matchUrlPattern_mk_badseg_same secure www false seg suffix hbad hnd]
  · rw [show ("x.com".toList : List Char) = hostTok true from rfl,
      matchUrlPattern_mk_badseg_same secure www true seg suffix hbad hnd,
      show ("twitter.com".toList : List Char) = hostTok (!true) from rfl,
      matchUrlPattern_mk_other]

theorem validateCore_mk_badseg (secure www hostX : Bool) (seg suffix : List Char)
    (hbad : ∃ c ∈ seg, isWordChar c = false)
    (hnd : ∀ c ∈ seg, ¬(c = '/' ∨ c = '?' ∨ c = '#'))
    (htrim : jsTrim (mkProfileUrl secure www hostX seg suffix)
      = mkProfileUrl secure www hostX seg suffix) :
    validateProfileUrlCore (mkProfileUrl secure www hostX seg suffix) =
      { isValid := false, normalizedUrl := none, username := none,
        error := some errFormat } := by
  unfold validateProfileUrlCore
  rw [mkProfileUrl_ne_nil]
  simp only [Bool.false_eq_true, if_false, htrim, mkProfileUrl_ne_nil,
    firstPatternMatch_mk_badseg secure www hostX seg suffix hbad hnd]

theorem validateCore_eval_match (url u : List Char)
    (he : url.isEmpty = false) (ht : (jsTrim url).isEmpty = false)
    (hm : firstPatternMatch (jsTrim url) = some u) :
    validateProfileUrlCore url = handleMatch (jsTrim url) u := by
  unfold validateProfileUrlCore
  simp only [he, ht, Bool.false_eq_true, if_false, hm]

theorem validateCore_eval_nomatch (url : List Char)
    (he : url.isEmpty = false) (ht : (jsTrim url).isEmpty = false)
    (hm : firstPatternMatch (jsTrim url) = none) :
    validateProfileUrlCore url =
      { isValid := false, normalizedUrl := none, username := none,
        error := some errFormat } := by
  unfold validateProfileUrlCore
  simp only [he, ht, Bool.false_eq_true, if_false, hm]

theorem handleMatch_valid_username (t u : List Char)
    (h : (handleMatch t u).isValid = true) :
    (handleMatch t u).username = some u ∧ usernamePattern u := by
  unfold handleMatch at h ⊢
  by_cases hup : usernamePattern u
  · rw [if_neg (not_not_intro hup)] at h ⊢
    rcases hf : fragmentCapture u t with _ | f
    · simp only [hf] at h ⊢
      exact ⟨trivial, hup⟩
    · simp only [hf] at h ⊢
      by_cases hcond : f ≠ [] ∧ f.length ≤ 8 ∧ f.all isWordChar = true ∧
          f ≠ "section".toList
      · rw [if_pos hcond] at h
        simp at h
      · rw [if_neg hcond] at h ⊢
        exact ⟨rfl, hup⟩
  · rw [if_pos hup] at h
    simp at h

theorem valid_username_grammar (url : List Char)
    (h : (validateProfileUrlCore url).isValid = true) :
    ∃ u, (validateProfileUrlCore url).username = some u ∧ usernamePattern u := by
  rcases he : url.isEmpty with _ | _
  · rcases ht : (jsTrim url).isEmpty with _ | _
    · rcases hm : firstPatternMatch (jsTrim url) with _ | u
      · rw [validateCore_eval_nomatch url he ht hm] at h
        simp at h
      · rw [validateCore_eval_match url u he ht hm] at h ⊢
        obtain ⟨h1, h2⟩ := handleMatch_valid_username (jsTrim url) u h
        exact ⟨u, h1, h2⟩
    · have : validateProfileUrlCore url =
          { isValid := false, normalizedUrl := none, username := none,
            error := some errEmpty } := by
        unfold validateProfileUrlCore
        simp only [he, ht, Bool.false_eq_true, if_false, if_true]
      rw [this] at h
      simp at h
  · have : validateProfileUrlCore url =
        { isValid := false, normalizedUrl := none, username := none,
          error := some errRequired } := by
      unfold validateProfileUrlCore
      simp only [he, if_true]
    rw [this] at h
    simp at h

/-! ## Claim theorems: URL validator -/

/-- C1 counterexample: the claim says the reserved word `home` as first path
segment is rejected, but `validateProfileUrl` accepts
`https://x.com/home` (there is no reserved-word check in the source). -/
theorem C1_counterexample :
    (validateProfileUrl "https://x.com/home").isValid = true ∧
    (validateProfileUrl "https://x.com/home").username = some "home".toList := by
  decide

/-- C1 (amended): `validateProfileUrl` accepts a URL only if the captured
first path segment is a 1-15 character run of word characters; every URL
whose first path segment contains a hyphen, dot, space, `@` or `%` is
rejected; but NO reserved-word rejection is performed: all nine words of
the claimed reserved list are accepted as usernames. -/
theorem C1_amended :
    (∀ url : List Char, (validateProfileUrlCore url).isValid = true →
      ∃ u, (validateProfileUrlCore url).username = some u ∧ usernamePattern u) ∧
    (∀ secure www hostX : Bool, ∀ seg suffix : List Char,
      (∃ c ∈ seg, c ∈ ['-', '.', ' ', '@', '%']) →
      (∀ c ∈ seg, ¬(c = '/' ∨ c = '?' ∨ c = '#')) →
      jsTrim (mkProfileUrl secure www hostX seg suffix)
        = mkProfileUrl secure www hostX seg suffix →
      (validateProfileUrlCore (mkProfileUrl secure www hostX seg suffix)).isValid = false) ∧
    (∀ w ∈ ["home".toList, "explore".toList, "notifications".toList, "messages".toList,
        "bookmarks".toList, "lists".toList, "settings".toList, "help".toList,
        ("i" : String).toList],
      (validateProfileUrlCore ("https://x.com/".toList ++ w)).isValid = true) := by
  refine ⟨valid_username_grammar, ?_, ?_⟩
  · intro secure www hostX seg suffix hbad hnd htrim
    obtain ⟨c, hcmem, hcbad⟩ := hbad
    have hbad' : ∃ c ∈ seg, isWordChar c = false := by
      refine ⟨c, hcmem, ?_⟩
      simp only [List.mem_cons, List.not_mem_nil, or_false] at hcbad
      rcases hcbad with rfl | rfl | rfl | rfl | rfl <;> decide
    rw [validateCore_mk_badseg secure www hostX seg suffix hbad' hnd htrim]
  · intro w hw
    fin_cases hw <;> decide

/-- C1 witness: a hyphenated first path segment is rejected, a grammar-valid
accepted URL carries a grammar-valid username, and the reserved word
`settings` is accepted. -/
theorem C1_witness :
    (validateProfileUrlCore
        (mkProfileUrl true false true "user-name".toList [])).isValid = false ∧
    (∃ u, (validateProfileUrlCore "https://x.com/abc".toList).username = some u ∧
      usernamePattern u) ∧
    (validateProfileUrlCore ("https://x.com/".toList ++ "settings".toList)).isValid
      = true := by
  refine ⟨?_, ?_, ?_⟩
  · exact C1_amended.2.1 true false true "user-name".toList [] (by decide) (by decide)
      (by decide)
  · exact C1_amended.1 "https://x.com/abc".toList (by decide)
  · exact C1_amended.2.2 "settings".toList (by decide)

/-- C5: normalization is canonicalizing — two accepted URLs built from the
same username that differ only in scheme, `www.`, host alias, or
grammar-permitted suffix (extra path, query, or non-rejecting fragment)
yield the same username and the same canonical URL
`https://x.com/USERNAME`. -/
theorem C5_canonicalization (s1 w1 h1 s2 w2 h2 : Bool) (u suf1 suf2 : List Char)
    (hw : ∀ c ∈ u, isWordChar c = true) (hl : 1 ≤ u.length) (hL : u.length ≤ 15)
    (hgs1 : goodSuffix suf1) (hgs2 : goodSuffix suf2)
    (ht1 : jsTrim (mkProfileUrl s1 w1 h1 u suf1) = mkProfileUrl s1 w1 h1 u suf1)
    (ht2 : jsTrim (mkProfileUrl s2 w2 h2 u suf2) = mkProfileUrl s2 w2 h2 u suf2)
    (hv1 : (validateProfileUrlCore (mkProfileUrl s1 w1 h1 u suf1)).isValid = true)
    (hv2 : (validateProfileUrlCore (mkProfileUrl s2 w2 h2 u suf2)).isValid = true) :
    (validateProfileUrlCore (mkProfileUrl s1 w1 h1 u suf1)).username
        = (validateProfileUrlCore (mkProfileUrl s2 w2 h2 u suf2)).username ∧
    (validateProfileUrlCore (mkProfileUrl s1 w1 h1 u suf1)).normalizedUrl
        = (validateProfileUrlCore (mkProfileUrl s2 w2 h2 u suf2)).normalizedUrl ∧
    (validateProfileUrlCore (mkProfileUrl s1 w1 h1 u suf1)).username = some u ∧
    (validateProfileUrlCore (mkProfileUrl s1 w1 h1 u suf1)).normalizedUrl
        = some ("https://x.com/".toList ++ u) := by
  have e1 := validateCore_mk s1 w1 h1 u suf1 hw hl hL hgs1 ht1
  have e2 := validateCore_mk s2 w2 h2 u suf2 hw hl hL hgs2 ht2
  by_cases hc1 : suffixClean suf1
  · by_cases hc2 : suffixClean suf2
    · rw [if_pos hc1] at e1
      rw [if_pos hc2] at e2
      by_cases hf1 : fragRejects suf1
      · rw [e1, if_pos hf1] at hv1
        simp at hv1
      · by_cases hf2 : fragRejects suf2
        · rw [e2, if_pos hf2] at hv2
          simp at hv2
        · rw [e1, if_neg hf1, e2, if_neg hf2]
          exact ⟨rfl, rfl, rfl, rfl⟩
    · rw [if_neg hc2] at e2
      rw [e2] at hv2
      simp at hv2
  · rw [if_neg hc1] at e1
    rw [e1] at hv1
    simp at hv1

/-- C5 witness: `https://www.x.com/alice?tab=replies` and
`http://twitter.com/alice/status/5` validate to the same username and the
same canonical URL. -/
theorem C5_witness :
    (validateProfileUrlCore
        (mkProfileUrl true true true "alice".toList "?tab=replies".toList)).username
      = (validateProfileUrlCore
          (mkProfileUrl false false false "alice".toList "/status/5".toList)).username ∧
    (validateProfileUrlCore
        (mkProfileUrl true true true "alice".toList "?tab=replies".toList)).normalizedUrl
      = (validateProfileUrlCore
          (mkProfileUrl false false false "alice".toList "/status/5".toList)).normalizedUrl ∧
    (validateProfileUrlCore
        (mkProfileUrl true true true "alice".toList "?tab=replies".toList)).username
      = some "alice".toList ∧
    (validateProfileUrlCore
        (mkProfileUrl true true true "alice".toList "?tab=replies".toList)).normalizedUrl
      = some ("https://x.com/".toList ++ "alice".toList) := by
  exact C5_canonicalization true true true false false false "alice".toList
    "?tab=replies".toList "/status/5".toList (by decide) (by decide) (by decide)
    (by refine Or.inr ⟨'?', _, rfl, ?_⟩; right; left; rfl)
    (by refine Or.inr ⟨'/', _, rfl, ?_⟩; left; rfl)
    (by decide) (by decide) (by decide) (by decide)

/-- C4 counterexample: the claim says every unparseable input yields 0, but
`parseCount("K")` is `parseFloat("") * 1000 = NaN`, not 0. -/
theorem C4_counterexample :
    parseCount "K".toList = JSNum.nan ∧ JSNum.nan ≠ JSNum.finite 0 := by
  constructor
  · rfl
  · intro h
    cases h

/-- C4 (amended): the four concrete equalities hold, commas are stripped, a
trailing `K`/`M`/`B` multiplies the preceding decimal by 1e3/1e6/1e9, and an
unparseable input NOT ending in `K`/`M`/`B` yields 0 — but an input ending
in `K`/`M`/`B` whose preceding text has no parseable decimal yields NaN,
not 0. -/
theorem C4_amended :
    parseCount "1.2K".toList = .finite 1200 ∧
    parseCount "500".toList = .finite 500 ∧
    parseCount "2M".toList = .finite 2000000 ∧
    parseCount "".toList = .finite 0 ∧
    (∀ s : List Char,
      (s.filter (fun c => c != ',')).getLast? ≠ some 'K' →
      (s.filter (fun c => c != ',')).getLast? ≠ some 'M' →
      (s.filter (fun c => c != ',')).getLast? ≠ some 'B' →
      jsParseInt (s.filter (fun c => c != ',')) = .nan →
      parseCount s = .finite 0) ∧
    (∀ s : List Char,
      (s.filter (fun c => c != ',')).getLast? = some 'K' →
      jsParseFloat ((s.filter (fun c => c != ',')).dropLast) = .nan →
      parseCount s = .nan) ∧
    (∀ s : List Char,
      (s.filter (fun c => c != ',')).getLast? = some 'K' →
      parseCount s =
        jsMul (jsParseFloat ((s.filter (fun c => c != ',')).dropLast)) (.finite 1000)) := by
  refine ⟨?_, ?_, ?_, rfl, ?_, ?_, ?_⟩
  · simp [parseCount, jsParseFloat, parseDecimalMag, applyExponent, splitSign, digitsToNat,
      jsMul]
    norm_num
  · simp [parseCount, jsParseInt, jsFalsy, splitSign, digitsToNat]
  · simp [parseCount, jsParseFloat, parseDecimalMag, applyExponent, splitSign, digitsToNat,
      jsMul]
    norm_num
  · intro s h1 h2 h3 h4
    unfold parseCount
    rw [if_neg (by simpa [beq_iff_eq] using h1), if_neg (by simpa [beq_iff_eq] using h2),
      if_neg (by simpa [beq_iff_eq] using h3)]
    simp only [h4]
    rfl
  · intro s h1 h4
    unfold parseCount
    rw [if_pos (by simpa [beq_iff_eq] using h1)]
    rw [h4]
    rfl
  · intro s h1
    unfold parseCount
    rw [if_pos (by simpa [beq_iff_eq] using h1)]

/-- C4 witness: `parseCount("xyz") = 0` while `parseCount("K") = NaN`. -/
theorem C4_witness :
    parseCount "xyz".toList = .finite 0 ∧ parseCount "K".toList = .nan := by
  constructor
  · exact C4_amended.2.2.2.2.1 "xyz".toList (by decide) (by decide) (by decide) (by decide)
  · exact C4_amended.2.2.2.2.2.1 "K".toList (by decide) (by decide)

/-! ## Claim theorems: batch profile fetching -/

theorem fetchBatch_fold_spec {D : Type} (items : List (List Char × APIResponseM D))
    (acc : BatchProfileResultM D) :
    items.foldl fetchBatchStep acc =
      { successful := acc.successful ++ items.filterMap
          (fun it => match it.2.success, it.2.data with
            | true, some d => some d
            | _, _ => none),
        failed := acc.failed ++ items.filterMap
          (fun it => match it.2.success, it.2.data with
            | true, some _ => none
            | _, _ => it.2.error.map (fun e => (it.1, e))) } := by
  induction items generalizing acc with
  | nil => simp
  | cons it items ih =>
    obtain ⟨url, resp⟩ := it
    obtain ⟨succ, data, err⟩ := resp
    cases succ <;> rcases data with _ | d <;> rcases err with _ | e <;>
      simp [fetchBatchStep, ih, List.filterMap_cons, List.append_assoc, Option.map]

/-- C3: batch processing isolates per-URL failures — for every URL list and
every sequence of per-URL `fetchProfile` responses (each carrying data on
success and an error on failure, as every return path of `fetchProfile`
does), the succeeded list is exactly the successful data in input order and
the failed list is exactly the failing URLs, each paired with its own
original URL and its error, in input order; processing never stops early. -/
theorem C3_batch_isolation {D : Type} (items : List (List Char × APIResponseM D))
    (hwf : ∀ it ∈ items, responseWellFormed it.2 = true) :
    (fetchBatchProfiles items).successful =
      items.filterMap (fun it => if it.2.success = true then it.2.data else none) ∧
    (fetchBatchProfiles items).failed =
      items.filterMap (fun it =>
        if it.2.success = true then none else it.2.error.map (fun e => (it.1, e))) := by
  unfold fetchBatchProfiles
  rw [fetchBatch_fold_spec]
  constructor
  · simp only [List.nil_append]
    apply List.filterMap_congr
    intro it _
    obtain ⟨url, resp⟩ := it
    obtain ⟨succ, data, err⟩ := resp
    cases succ <;> rcases data with _ | d <;> simp
  · simp only [List.nil_append]
    apply List.filterMap_congr
    intro it hit
    have h := hwf it hit
    obtain ⟨url, resp⟩ := it
    obtain ⟨succ, data, err⟩ := resp
    unfold responseWellFormed at h
    cases succ <;> rcases data with _ | d <;> simp at h ⊢

/-- C3 witness: three URLs where the second fails — `successful` has the
two successes in input order and `failed` is exactly the second URL with
its error. -/
theorem C3_witness :
    (fetchBatchProfiles
        [("https://x.com/u1".toList,
          { success := true, data := some "p1".toList, error := none }),
         ("https://x.com/u2".toList,
          { success := false, data := none,
            error := some { code := "PROFILE_NOT_FOUND".toList,
                            message := "Profile not found".toList } }),
         ("https://x.com/u3".toList,
          { success := true, data := some "p3".toList, error := none })]).successful
      = ["p1".toList, "p3".toList] ∧
    (fetchBatchProfiles
        [("https://x.com/u1".toList,
          { success := true, data := some "p1".toList, error := none }),
         ("https://x.com/u2".toList,
          { success := false, data := none,
            error := some { code := "PROFILE_NOT_FOUND".toList,
                            message := "Profile not found".toList } }),
         ("https://x.com/u3".toList,
          { success := true, data := some "p3".toList, error := none })]).failed
      = [("https://x.com/u2".toList,
          { code := "PROFILE_NOT_FOUND".toList,
            message := "Profile not found".toList })] := by
  have h := C3_batch_isolation (D := List Char)
    [("https://x.com/u1".toList,
      { success := true, data := some "p1".toList, error := none }),
     ("https://x.com/u2".toList,
      { success := false, data := none,
        error := some { code := "PROFILE_NOT_FOUND".toList,
                        message := "Profile not found".toList } }),
     ("https://x.com/u3".toList,
      { success := true, data := some "p3".toList, error := none })]
    (by decide)
  rw [h.1, h.2]
  decide

/-! ## Claim theorems: BrowserPDFService layout -/

theorem bpPageState_eq (ipp n : ℕ) (hipp : 1 ≤ ipp) (hn : 1 ≤ n) :
    bpPageState ipp n = ((n - 1) / ipp, (n - 1) / ipp) := by
  induction n with
  | zero => omega
  | succ m ih =>
    by_cases hm : m = 0
    · subst hm
      simp [bpPageState, List.range_succ, Nat.zero_div]
    · have hm1 : 1 ≤ m := Nat.one_le_iff_ne_zero.mpr hm
      have ihm := ih hm1
      have hstep : bpPageState ipp (m + 1) =
          (if m / ipp > (bpPageState ipp m).1 then (m / ipp, (bpPageState ipp m).2 + 1)
            else bpPageState ipp m) := by
        unfold bpPageState
        rw [List.range_succ, List.foldl_append]
        rfl
      rw [hstep, ihm]
      have hle : (m - 1) / ipp ≤ m / ipp := Nat.div_le_div_right (by omega)
      have hub : m / ipp ≤ (m - 1) / ipp + 1 := by
        have h1 : m ≤ (m - 1) + ipp := by omega
        have h2 : m / ipp ≤ ((m - 1) + ipp) / ipp := Nat.div_le_div_right h1
        rwa [Nat.add_div_right _ (by omega)] at h2
      by_cases hgt : m / ipp > (m - 1) / ipp
      · rw [if_pos hgt]
        have : m / ipp = (m - 1) / ipp + 1 := by omega
        simp [this]
      · rw [if_neg hgt]
        have : m / ipp = (m - 1) / ipp := by omega
        simp [this]

/-- C2: the layout placement of `BrowserPDFService.generatePDF` is row-major
and total — with `itemsPerPage = itemsPerRow * itemsPerColumn ≥ 1`, every
list of `n` cards receives exactly `n` placements, card `i` is placed on
page `i / itemsPerPage` at column `(i % itemsPerPage) % itemsPerRow` and row
`(i % itemsPerPage) / itemsPerRow` with pixel position
`(margin + col*(cardW+spacing), margin + row*(cardH+spacing))`, a list of
exactly `itemsPerPage` cards produces exactly 1 page, and `itemsPerPage + 1`
cards produce exactly 2 pages. -/
theorem C2_layout (ipr ipc : ℕ) (margin cardW cardH spacing : ℚ)
    (hr : 1 ≤ ipr) (hc : 1 ≤ ipc) (n : ℕ) :
    (layoutPlacements ipr (ipr * ipc) margin cardW cardH spacing n).length = n ∧
    (∀ i, i < n →
      (layoutPlacements ipr (ipr * ipc) margin cardW cardH spacing n).get? i =
        some { page := i / (ipr * ipc), row := i % (ipr * ipc) / ipr,
               col := i % (ipr * ipc) % ipr,
               x := margin + ((i % (ipr * ipc) % ipr : ℕ) : ℚ) * (cardW + spacing),
               y := margin + ((i % (ipr * ipc) / ipr : ℕ) : ℚ) * (cardH + spacing) }) ∧
    bpPageCount (ipr * ipc) (ipr * ipc) = 1 ∧
    bpPageCount (ipr * ipc) (ipr * ipc + 1) = 2 := by
  have hipp : 1 ≤ ipr * ipc := Nat.one_le_iff_ne_zero.mpr (by positivity)
  refine ⟨by simp [layoutPlacements], ?_, ?_, ?_⟩
  · intro i hi
    rw [layoutPlacements, List.get?_map, List.get?_range hi]
    rfl
  · unfold bpPageCount
    rw [bpPageState_eq _ _ hipp hipp]
    have : (ipr * ipc - 1) / (ipr * ipc) = 0 := Nat.div_eq_of_lt (by omega)
    simp [this]
  · unfold bpPageCount
    rw [bpPageState_eq _ _ hipp (by omega)]
    have hpos : 0 < ipr * ipc := by omega
    simp [Nat.add_sub_cancel, Nat.div_self hpos]

theorem bpItemsPerRow_eq : bpItemsPerRow = 1 := by
  unfold bpItemsPerRow ratFloorNat bpPageWidth bpMargin bpNameTagWidth bpSpacing
  have h : ⌊(210 - 2 * 20 : ℚ) / (85 + 10)⌋ = 1 := by
    rw [Int.floor_eq_iff]
    norm_num
  rw [h]
  rfl

theorem bpItemsPerColumn_eq : bpItemsPerColumn = 4 := by
  unfold bpItemsPerColumn ratFloorNat bpPageHeight bpMargin bpNameTagHeight bpSpacing
  have h : ⌊(297 - 2 * 20 : ℚ) / (54 + 10)⌋ = 4 := by
    rw [Int.floor_eq_iff]
    norm_num
  rw [h]
  rfl

/-- C2 witness: at the A4 constants of the source (`itemsPerRow = 1`,
`itemsPerColumn = 4`), 4 cards fill exactly one page and 5 cards take two. -/
theorem C2_witness :
    1 ≤ bpItemsPerRow ∧ 1 ≤ bpItemsPerColumn ∧
    bpPageCount (bpItemsPerRow * bpItemsPerColumn) (bpItemsPerRow * bpItemsPerColumn) = 1 ∧
    bpPageCount (bpItemsPerRow * bpItemsPerColumn)
      (bpItemsPerRow * bpItemsPerColumn + 1) = 2 := by
  have h := C2_layout bpItemsPerRow bpItemsPerColumn bpMargin bpNameTagWidth bpNameTagHeight
    bpSpacing (by rw [bpItemsPerRow_eq]) (by rw [bpItemsPerColumn_eq]; norm_num) 0
  exact ⟨by rw [bpItemsPerRow_eq], by rw [bpItemsPerColumn_eq]; norm_num, h.2.2.1, h.2.2.2⟩

/-! ## Claim theorems: zero-card layout and batch error policy -/

/-- C7 counterexample: the claim says a zero-length card list yields an
empty 0-page plan without error, but `PDFService.generateMultipleNameTagsPDF`
throws `No profiles provided for PDF generation` on an empty profile
list. -/
theorem C7_counterexample :
    generateMultipleNameTagsPDF ([] : List ℕ) 6
      = .error "No profiles provided for PDF generation".toList := rfl

/-- C7 (amended): `PDFService.generateMultipleNameTagsPDF` raises an error
for an empty list (for every tags-per-page setting), while
`BrowserPDFService.generatePDF` emits zero placements and performs zero
`addPage` calls without error — its document keeps the single initial jsPDF
page, so the produced document has 1 page, not 0. -/
theorem C7_amended :
    (∀ ntp : ℕ, generateMultipleNameTagsPDF ([] : List ℕ) ntp
      = .error "No profiles provided for PDF generation".toList) ∧
    layoutPlacements bpItemsPerRow bpItemsPerPage bpMargin bpNameTagWidth bpNameTagHeight
      bpSpacing 0 = [] ∧
    bpPageState bpItemsPerPage 0 = (0, 0) ∧
    bpPageCount bpItemsPerPage 0 = 1 := by
  exact ⟨fun ntp => rfl, rfl, rfl, rfl⟩

/-- C8 counterexample: a two-URL batch where the second URL passes
validation but fails extraction completes as an overall success whose
`X-Invalid-URLs` list is empty — the extraction-failed URL is not carried
anywhere in the response, contradicting the claim that success carries the
list of failed URLs. -/
theorem C8_counterexample :
    c8extract "https://x.com/bob".toList = none ∧
    generateMultipleHandler
        ["https://x.com/alice".toList, "https://x.com/bob".toList] c8extract
      = .ok { invalidUrls := [], contents := [1] } := by
  constructor
  · rfl
  · rfl

/-- C8 (amended): for every non-empty URL list handed to
`NameTagGenerator.generateMultipleNameTags`, the `NoValidProfiles` error
(`No valid profiles could be processed`) is raised exactly when every URL
fails extraction; when at least one succeeds the batch completes as an
overall success carrying the successful contents in input order, never a
hard error — and a successful `/generate-multiple` response carries in its
`X-Invalid-URLs` header exactly the URLs that failed validation; URLs that
passed validation but failed extraction are skipped silently. -/
theorem C8_amended {α : Type} (urls : List (List Char)) (extract : List Char → Option α)
    (hne : urls ≠ []) :
    (generateMultipleNameTags urls extract
        = .error "No valid profiles could be processed".toList
      ↔ ∀ u ∈ urls, extract u = none) ∧
    ((∃ u ∈ urls, (extract u).isSome = true) →
      generateMultipleNameTags urls extract = .ok (urls.filterMap extract)) ∧
    (∀ res : MultipleResponse α, generateMultipleHandler urls extract = .ok res →
      res.invalidUrls = urls.filter (fun u => !(validateProfileUrlCore u).isValid)) := by
  refine ⟨?_, ?_, ?_⟩
  · unfold generateMultipleNameTags
    by_cases hz : (urls.filterMap extract).length = 0
    · rw [if_pos hz]
      have hnil : urls.filterMap extract = [] := List.length_eq_zero.mp hz
      rw [List.filterMap_eq_nil] at hnil
      exact iff_of_true rfl hnil
    · rw [if_neg hz]
      refine iff_of_false (by simp) ?_
      intro hall
      exact hz (by rw [List.filterMap_eq_nil.mpr hall]; rfl)
  · intro hex
    unfold generateMultipleNameTags
    rw [if_neg ?_]
    intro hz
    obtain ⟨u, hu, hsome⟩ := hex
    have hnil : urls.filterMap extract = [] := List.length_eq_zero.mp hz
    rw [List.filterMap_eq_nil] at hnil
    rw [hnil u hu] at hsome
    cases hsome
  · intro res hres
    simp only [generateMultipleHandler] at hres
    by_cases h0 : urls.length = 0
    · rw [if_pos h0] at hres
      cases hres
    · rw [if_neg h0] at hres
      by_cases h20 : urls.length > 20
      · rw [if_pos h20] at hres
        cases hres
      · rw [if_neg h20] at hres
        by_cases hv : (urls.filter (fun u => (validateProfileUrlCore u).isValid)).length = 0
        · rw [if_pos hv] at hres
          cases hres
        · rw [if_neg hv] at hres
          rcases hg : generateMultipleNameTags
              (urls.filter (fun u => (validateProfileUrlCore u).isValid)) extract with e | cs
          · rw [hg] at hres
            cases hres
          · rw [hg] at hres
            injection hres with h
            rw [← h]

/-- C8 witness: with the first URL succeeding and the second failing
extraction, the batch is an overall success with the successes in order;
with every URL failing, the batch raises the `NoValidProfiles` error. -/
theorem C8_witness :
    generateMultipleNameTags
        ["https://x.com/alice".toList, "https://x.com/bob".toList] c8extract
      = .ok (["https://x.com/alice".toList, "https://x.com/bob".toList].filterMap
          c8extract) ∧
    generateMultipleNameTags
        ["https://x.com/alice".toList, "https://x.com/bob".toList]
        (fun _ => (none : Option ℕ))
      = .error "No valid profiles could be processed".toList := by
  constructor
  · exact (C8_amended ["https://x.com/alice".toList, "https://x.com/bob".toList] c8extract
      (by decide)).2.1 ⟨"https://x.com/alice".toList, by decide, by decide⟩
  · exact (C8_amended ["https://x.com/alice".toList, "https://x.com/bob".toList]
      (fun _ => (none : Option ℕ)) (by decide)).1.mpr (fun u _ => rfl)

/-! ## Claim theorems: PDFGenerator.generateMultipleNameTags geometry -/

theorem jsAdd_finite (a b : ℚ) : jsAdd (.finite a) (.finite b) = .finite (a + b) := rfl

theorem jsMul_finite (a b : ℚ) : jsMul (.finite a) (.finite b) = .finite (a * b) := rfl

theorem jsDiv_finite (a b : ℚ) (hb : b ≠ 0) :
    jsDiv (.finite a) (.finite b) = .finite (a / b) := by
  show (if b = 0 then (if a = 0 then JSNum.nan else if 0 < a then JSNum.inf else JSNum.negInf)
      else JSNum.finite (a / b)) = JSNum.finite (a / b)
  rw [if_neg hb]

theorem gmSpace_nonneg (P : ℚ) (count : ℕ) (size : ℚ) (hc : 2 ≤ count)
    (hfit : (count : ℚ) * size ≤ P - 72) : 0 ≤ gmSpace P count size := by
  have hcq : (2 : ℚ) ≤ (count : ℚ) := by exact_mod_cast hc
  exact div_nonneg (by linarith) (by linarith)

theorem gmPos_key (P : ℚ) (count : ℕ) (size : ℚ) (hc : 2 ≤ count) :
    ((count : ℚ) - 1) * (size + gmSpace P count size) = P - 72 - size := by
  have hcq : (2 : ℚ) ≤ (count : ℚ) := by exact_mod_cast hc
  have hne : ((count : ℚ) - 1) ≠ 0 := by linarith
  have h1 : ((count : ℚ) - 1) * gmSpace P count size = P - 72 - (count : ℚ) * size := by
    unfold gmSpace
    rw [mul_div_cancel₀ _ hne]
  have h2 : ((count : ℚ) - 1) * (size + gmSpace P count size)
      = ((count : ℚ) - 1) * size + ((count : ℚ) - 1) * gmSpace P count size := by ring
  rw [h2, h1]
  ring

theorem gmPos_bounds (P : ℚ) (count : ℕ) (size : ℚ) (idx : ℕ) (hc : 2 ≤ count)
    (hsize : 0 < size) (hfit : (count : ℚ) * size ≤ P - 72) (hidx : idx < count) :
    36 ≤ gmPos P count size idx ∧ gmPos P count size idx + size ≤ P - 36 := by
  have hsp := gmSpace_nonneg P count size hc hfit
  have hkey := gmPos_key P count size hc
  have hidxq : (idx : ℚ) ≤ (count : ℚ) - 1 := by
    have : (idx : ℚ) + 1 ≤ (count : ℚ) := by exact_mod_cast hidx
    linarith
  have hstep : 0 ≤ size + gmSpace P count size := by linarith
  constructor
  · unfold gmPos
    have : 0 ≤ (idx : ℚ) * (size + gmSpace P count size) :=
      mul_nonneg (by positivity) hstep
    linarith
  · unfold gmPos
    have hmono : (idx : ℚ) * (size + gmSpace P count size)
        ≤ ((count : ℚ) - 1) * (size + gmSpace P count size) :=
      mul_le_mul_of_nonneg_right hidxq hstep
    linarith

theorem gmPos_sep (P : ℚ) (count : ℕ) (size : ℚ) (idx1 idx2 : ℕ) (hc : 2 ≤ count)
    (hsize : 0 < size) (hfit : (count : ℚ) * size ≤ P - 72) (h12 : idx1 < idx2) :
    gmPos P count size idx1 + size ≤ gmPos P count size idx2 := by
  have hsp := gmSpace_nonneg P count size hc hfit
  have hstep : 0 ≤ size + gmSpace P count size := by linarith
  have h12q : (idx1 : ℚ) + 1 ≤ (idx2 : ℚ) := by exact_mod_cast h12
  unfold gmPos
  have h1 : ((idx1 : ℚ) + 1) * (size + gmSpace P count size)
      ≤ (idx2 : ℚ) * (size + gmSpace P count size) :=
    mul_le_mul_of_nonneg_right h12q hstep
  nlinarith

theorem generateMultiplePositions_get (paper : PaperSize) (cols rows : ℕ)
    (spacingOpt : Option ℚ) (w h : ℚ) (n : ℕ)
    (hc : 2 ≤ cols) (hr : 2 ≤ rows) (i : ℕ) (hi : i < n) :
    (generateMultiplePositions paper (some cols) (some rows) spacingOpt w h n).get? i =
      some (.finite (gmPos (paperWidth paper) cols w (i % (rows * cols) % cols)),
            .finite (gmPos (paperHeight paper) rows h (i % (rows * cols) / cols))) := by
  have hcq : (2 : ℚ) ≤ (cols : ℚ) := by exact_mod_cast hc
  have hrq : (2 : ℚ) ≤ (rows : ℚ) := by exact_mod_cast hr
  have hcne : ((cols : ℚ) - 1) ≠ 0 := by linarith
  have hrne : ((rows : ℚ) - 1) ≠ 0 := by linarith
  unfold generateMultiplePositions
  simp only [jsOrNat, if_neg (by omega : ¬ cols = 0), if_neg (by omega : ¬ rows = 0)]
  rw [List.get?_map, List.get?_range hi]
  simp only [jsDiv_finite _ _ hcne, jsDiv_finite _ _ hrne, jsAdd_finite, jsMul_finite,
    Option.map_some']
  unfold gmPos gmSpace
  rfl

/-- C6 counterexample: the claim says explicit column/row counts are clamped
so cards never overlap, but with explicit `columns = 3` on LETTER paper and
the default 252x162-point tag, `PDFGenerator.generateMultipleNameTags`
places card 0 at x=36 and card 1 at x=180 on the same page and row: the
horizontal intervals `[36, 36+252)` and `[180, 180+252)` overlap, and no
clamping occurs. -/
theorem C6_counterexample :
    generateMultiplePositions .letter (some 3) (some 4) none (pdfGenWidth (some 252))
        (pdfGenHeight (some 162)) 2
      = [(JSNum.finite 36, JSNum.finite 36), (JSNum.finite 180, JSNum.finite 36)] ∧
    (36 : ℚ) < 180 + 252 ∧ (180 : ℚ) < 36 + 252 := by
  refine ⟨?_, by norm_num, by norm_num⟩
  unfold generateMultiplePositions pdfGenWidth pdfGenHeight jsOrRat jsOrNat paperWidth
    paperHeight
  norm_num [List.range_succ, jsDiv_finite, jsAdd_finite, jsMul_finite]

/-- C6 (amended): no clamping of an explicit column/row count is performed;
instead, whenever the explicit counts satisfy `2 ≤ columns`, `2 ≤ rows`,
`columns*tagW ≤ pageWidth - 72` and `rows*tagH ≤ pageHeight - 72`, the
recomputed even spacing makes every placement land inside the page content
area with no two same-page cards overlapping; the caller-supplied `spacing`
option is ignored entirely by the position math. -/
theorem C6_amended (paper : PaperSize) (cols rows : ℕ) (spacingOpt : Option ℚ)
    (w h : ℚ) (n : ℕ)
    (hc : 2 ≤ cols) (hr : 2 ≤ rows) (hw : 0 < w) (hh : 0 < h)
    (hfw : (cols : ℚ) * w ≤ paperWidth paper - 72)
    (hfh : (rows : ℚ) * h ≤ paperHeight paper - 72) :
    (∀ sOpt : Option ℚ,
      generateMultiplePositions paper (some cols) (some rows) sOpt w h n
        = generateMultiplePositions paper (some cols) (some rows) spacingOpt w h n) ∧
    (∀ i, i < n →
      (generateMultiplePositions paper (some cols) (some rows) spacingOpt w h n).get? i =
        some (.finite (gmPos (paperWidth paper) cols w (i % (rows * cols) % cols)),
              .finite (gmPos (paperHeight paper) rows h (i % (rows * cols) / cols)))) ∧
    (∀ i, i < n →
      36 ≤ gmPos (paperWidth paper) cols w (i % (rows * cols) % cols) ∧
      gmPos (paperWidth paper) cols w (i % (rows * cols) % cols) + w
        ≤ paperWidth paper - 36 ∧
      36 ≤ gmPos (paperHeight paper) rows h (i % (rows * cols) / cols) ∧
      gmPos (paperHeight paper) rows h (i % (rows * cols) / cols) + h
        ≤ paperHeight paper - 36) ∧
    (∀ i j, i < n → j < n → i ≠ j → i / (rows * cols) = j / (rows * cols) →
      gmPos (paperWidth paper) cols w (i % (rows * cols) % cols) + w
          ≤ gmPos (paperWidth paper) cols w (j % (rows * cols) % cols) ∨
      gmPos (paperWidth paper) cols w (j % (rows * cols) % cols) + w
          ≤ gmPos (paperWidth paper) cols w (i % (rows * cols) % cols) ∨
      gmPos (paperHeight paper) rows h (i % (rows * cols) / cols) + h
          ≤ gmPos (paperHeight paper) rows h (j % (rows * cols) / cols) ∨
      gmPos (paperHeight paper) rows h (j % (rows * cols) / cols) + h
          ≤ gmPos (paperHeight paper) rows h (i % (rows * cols) / cols)) := by
  have hcols0 : 0 < cols := by omega
  have hrows0 : 0 < rows := by omega
  have hipp0 : 0 < rows * cols := by positivity
  refine ⟨fun sOpt => rfl, ?_, ?_, ?_⟩
  · intro i hi
    exact generateMultiplePositions_get paper cols rows spacingOpt w h n hc hr i hi
  · intro i hi
    have hcol : i % (rows * cols) % cols < cols := Nat.mod_lt _ hcols0
    have hrow : i % (rows * cols) / cols < rows := by
      rw [Nat.div_lt_iff_lt_mul hcols0]
      exact Nat.mod_lt _ hipp0
    have hx := gmPos_bounds (paperWidth paper) cols w _ hc hw hfw hcol
    have hy := gmPos_bounds (paperHeight paper) rows h _ hr hh hfh hrow
    exact ⟨hx.1, hx.2, hy.1, hy.2⟩
  · intro i j hi hj hij hpage
    have hpij : i % (rows * cols) ≠ j % (rows * cols) := by
      intro heq
      apply hij
      have h1 := Nat.div_add_mod i (rows * cols)
      have h2 := Nat.div_add_mod j (rows * cols)
      rw [← h1, ← h2, hpage, heq]
    rcases Nat.lt_trichotomy (i % (rows * cols) % cols) (j % (rows * cols) % cols) with
      hcl | hce | hcg
    · exact Or.inl (gmPos_sep (paperWidth paper) cols w _ _ hc hw hfw hcl)
    · have hrne : i % (rows * cols) / cols ≠ j % (rows * cols) / cols := by
        intro heq
        apply hpij
        have h1 := Nat.div_add_mod (i % (rows * cols)) cols
        have h2 := Nat.div_add_mod (j % (rows * cols)) cols
        rw [← h1, ← h2, heq, hce]
      rcases Nat.lt_or_ge (i % (rows * cols) / cols) (j % (rows * cols) / cols) with
        hrl | hrg
      · exact Or.inr (Or.inr (Or.inl
          (gmPos_sep (paperHeight paper) rows h _ _ hr hh hfh hrl)))
      · have hrl2 : j % (rows * cols) / cols < i % (rows * cols) / cols := by omega
        exact Or.inr (Or.inr (Or.inr
          (gmPos_sep (paperHeight paper) rows h _ _ hr hh hfh hrl2)))
    · exact Or.inr (Or.inl (gmPos_sep (paperWidth paper) cols w _ _ hc hw hfw hcg))

/-- C6 witness: the default layout (2 columns, 4 rows) of 252x162-point
tags on LETTER paper satisfies the fit hypotheses, and cards 0 and 1 of a
3-card page are placed inside the content area without overlapping. -/
theorem C6_witness :
    (2 : ℚ) * 252 ≤ paperWidth .letter - 72 ∧
    (4 : ℚ) * 162 ≤ paperHeight .letter - 72 ∧
    (36 ≤ gmPos (paperWidth .letter) 2 252 (0 % (4 * 2) % 2) ∧
      gmPos (paperWidth .letter) 2 252 (0 % (4 * 2) % 2) + 252
        ≤ paperWidth .letter - 36 ∧
      36 ≤ gmPos (paperHeight .letter) 4 162 (0 % (4 * 2) / 2) ∧
      gmPos (paperHeight .letter) 4 162 (0 % (4 * 2) / 2) + 162
        ≤ paperHeight .letter - 36) ∧
    (gmPos (paperWidth .letter) 2 252 (0 % (4 * 2) % 2) + 252
        ≤ gmPos (paperWidth .letter) 2 252 (1 % (4 * 2) % 2) ∨
      gmPos (paperWidth .letter) 2 252 (1 % (4 * 2) % 2) + 252
        ≤ gmPos (paperWidth .letter) 2 252 (0 % (4 * 2) % 2) ∨
      gmPos (paperHeight .letter) 4 162 (0 % (4 * 2) / 2) + 162
        ≤ gmPos (paperHeight .letter) 4 162 (1 % (4 * 2) / 2) ∨
      gmPos (paperHeight .letter) 4 162 (1 % (4 * 2) / 2) + 162
        ≤ gmPos (paperHeight .letter) 4 162 (0 % (4 * 2) / 2)) := by
  have h := C6_amended .letter 2 4 none 252 162 3 (by norm_num) (by norm_num)
    (by norm_num) (by norm_num)
    (by unfold paperWidth; norm_num) (by unfold paperHeight; norm_num)
  refine ⟨by unfold paperWidth; norm_num, by unfold paperHeight; norm_num, ?_, ?_⟩
  · exact h.2.2.1 0 (by norm_num)
  · exact h.2.2.2 0 1 (by norm_num) (by norm_num) (by norm_num) (by norm_num)

/-! ## Claim theorems: validateXProfile -/

/-- C10 counterexample: a whitespace-only `username` passes the
required-field guard (a nonempty string is truthy) but is trimmed to the
empty string in the returned profile — so a returned profile does not
always carry a non-empty username. -/
theorem C10_counterexample :
    validateXProfile (some c10input) ≠ none ∧
    (validateXProfile (some c10input)).map XProfileM.username = some [] := by
  constructor
  · intro h
    cases h
  · rfl

/-- C10 (amended): `validateXProfile` returns `null` whenever the argument
is missing/non-object or any of the four required fields (`username`,
`displayName`, `avatarUrl`, `profileUrl`) is missing, empty or not a
string; every profile it returns has non-empty `avatarUrl` and
`profileUrl`, carries the trimmed `username`/`displayName` (which are empty
when the input was whitespace-only), and defaults
`verified`/`followerCount`/`followingCount` — but the claim that the
returned `username`/`displayName` are always non-empty fails for
whitespace-only inputs. -/
theorem C10_amended :
    validateXProfile none = none ∧
    (∀ d : XProfileInput,
      (requiredOk d.username && requiredOk d.displayName && requiredOk d.avatarUrl &&
        requiredOk d.profileUrl) = false →
      validateXProfile (some d) = none) ∧
    (∀ d : XProfileInput, ∀ p : XProfileM, validateXProfile (some d) = some p →
      p.avatarUrl ≠ [] ∧ p.profileUrl ≠ [] ∧
      p.username = jsTrim (jsValStr d.username) ∧
      p.displayName = jsTrim (jsValStr d.displayName) ∧
      p.verified = jsTruthy d.verified ∧
      p.followerCount = strOrDefault d.followerCount "0".toList ∧
      p.followingCount = strOrDefault d.followingCount "0".toList) := by
  refine ⟨rfl, ?_, ?_⟩
  · intro d hfail
    simp only [validateXProfile]
    rw [if_neg (by rw [hfail]; intro h; cases h)]
  · intro d p hp
    simp only [validateXProfile] at hp
    by_cases hcond : (requiredOk d.username && requiredOk d.displayName &&
        requiredOk d.avatarUrl && requiredOk d.profileUrl) = true
    · rw [if_pos hcond] at hp
      injection hp with hp
      subst hp
      simp only [Bool.and_eq_true] at hcond
      obtain ⟨⟨⟨hu, hd⟩, ha⟩, hq⟩ := hcond
      refine ⟨?_, ?_, rfl, rfl, rfl, rfl, rfl⟩
      · unfold requiredOk at ha
        rcases hav : d.avatarUrl with _ | _ | s | n | b <;> rw [hav] at ha <;>
          simp [jsTruthy, isStringType] at ha
        simp [jsValStr, hav]
        intro hnil
        rw [hnil] at ha
        simp at ha
      · unfold requiredOk at hq
        rcases hpv : d.profileUrl with _ | _ | s | n | b <;> rw [hpv] at hq <;>
          simp [jsTruthy, isStringType] at hq
        simp [jsValStr, hpv]
        intro hnil
        rw [hnil] at hq
        simp at hq
    · rw [if_neg hcond] at hp
      cases hp

/-- C10 witness: an input without `avatarUrl` is rejected, and a complete
input yields a profile with the documented field values. -/
theorem C10_witness :
    validateXProfile (some { username := .str "alice".toList,
                             displayName := .str "Alice".toList,
                             profileUrl := .str "https://x.com/alice".toList }) = none ∧
    (∀ p : XProfileM, validateXProfile (some c10input) = some p →
      p.avatarUrl ≠ [] ∧ p.profileUrl ≠ [] ∧
      p.username = jsTrim (jsValStr c10input.username) ∧
      p.displayName = jsTrim (jsValStr c10input.displayName) ∧
      p.verified = jsTruthy c10input.verified ∧
      p.followerCount = strOrDefault c10input.followerCount "0".toList ∧
      p.followingCount = strOrDefault c10input.followingCount "0".toList) := by
  constructor
  · exact C10_amended.2.1 _ (by decide)
  · exact C10_amended.2.2 c10input

/-- C7 witness: the empty-list error is raised at a non-default
tags-per-page setting too. -/
theorem C7_witness :
    generateMultipleNameTagsPDF ([] : List ℕ) 12
      = .error "No profiles provided for PDF generation".toList :=
  C7_amended.1 12
